import Mathlib

/-!
Verification of the openapi model-to-schema reflection engine.

This file gives a shallow embedding of the repository's core (schema.go and
api.go): the reflection engine `registerModelF` (a fuel-indexed, purely
functional translation of `API.RegisterModel`), the naming engine
`normalizeTypeName` / `getModelName`, the referencing rule
`shouldBeReferenced` / `getSchemaReferenceOrValue`, the primitive-parameter
schema constructor `newPrimitiveSchema`, and the route-merging operations
`mergeMap` / `API.Merge`.

Go values are modelled as follows: reflect.Type becomes a numeric type id
resolved through a type graph (`Ctx.types`), so that genuinely cyclic Go
type graphs are expressible; Go maps become association lists with
`lookupKV` / `upsertKV` / `removeKV`; the multiple return values
(name, schema, err) of RegisterModel become a tuple whose schema and err
components are `Option`s (`none` models a nil pointer / nil error); running
out of fuel is the outer `Option`'s `none` and marks non-termination of the
Go original. Timestamps (`time.Now().UnixMicro()`) are modelled by the
`now` field of the context.
-/

namespace OpenapiProof

/-- Lookup in an association list, the model of reading a Go map. -/
def lookupKV {κ α : Type} [DecidableEq κ] : List (κ × α) → κ → Option α
  | [], _ => none
  | (k, v) :: rest, key => if k = key then some v else lookupKV rest key

/-- Insert-or-replace in an association list, the model of Go map assignment. -/
def upsertKV {κ α : Type} [DecidableEq κ] : List (κ × α) → κ → α → List (κ × α)
  | [], k, v => [(k, v)]
  | (k0, v0) :: rest, k, v =>
    if k0 = k then (k, v) :: rest else (k0, v0) :: upsertKV rest k v

/-- Remove a key from an association list, the model of Go's delete. -/
def removeKV {κ α : Type} [DecidableEq κ] : List (κ × α) → κ → List (κ × α)
  | [], _ => []
  | (k0, v0) :: rest, k =>
    if k0 = k then removeKV rest k else (k0, v0) :: removeKV rest k

/-- Model of the openapi3.Schema subset this repository reads and writes.
`type_` models the *openapi3.Types slice (empty list = nil), `properties`,
`items` and `addPropsSchema` hold schema references: `Sum.inl ref` is a
$ref string (openapi3.NewSchemaRef with a ref and nil value) and
`Sum.inr s` an inline schema value. `addPropsHas` is
AdditionalProperties.Has, `addPropsSchema` is AdditionalProperties.Schema. -/
inductive Schema : Type where
  | mk :
    (type_ : List String) →
    (format : String) →
    (pat : String) →
    (description : String) →
    (nullable : Bool) →
    (deprecated : Bool) →
    (properties : List (String × (String ⊕ Schema))) →
    (required : List String) →
    (items : Option (String ⊕ Schema)) →
    (addPropsHas : Option Bool) →
    (addPropsSchema : Option (String ⊕ Schema)) →
    (enum : List String) →
    Schema

def Schema.type_ : Schema → List String
  | .mk t _ _ _ _ _ _ _ _ _ _ _ => t

def Schema.format : Schema → String
  | .mk _ f _ _ _ _ _ _ _ _ _ _ => f

def Schema.pat : Schema → String
  | .mk _ _ p _ _ _ _ _ _ _ _ _ => p

def Schema.description : Schema → String
  | .mk _ _ _ d _ _ _ _ _ _ _ _ => d

def Schema.nullable : Schema → Bool
  | .mk _ _ _ _ n _ _ _ _ _ _ _ => n

def Schema.deprecated : Schema → Bool
  | .mk _ _ _ _ _ d _ _ _ _ _ _ => d

def Schema.properties : Schema → List (String × (String ⊕ Schema))
  | .mk _ _ _ _ _ _ p _ _ _ _ _ => p

def Schema.required : Schema → List String
  | .mk _ _ _ _ _ _ _ r _ _ _ _ => r

def Schema.items : Schema → Option (String ⊕ Schema)
  | .mk _ _ _ _ _ _ _ _ i _ _ _ => i

def Schema.addPropsHas : Schema → Option Bool
  | .mk _ _ _ _ _ _ _ _ _ h _ _ => h

def Schema.addPropsSchema : Schema → Option (String ⊕ Schema)
  | .mk _ _ _ _ _ _ _ _ _ _ s _ => s

def Schema.enum : Schema → List String
  | .mk _ _ _ _ _ _ _ _ _ _ _ e => e

def Schema.setPat : Schema → String → Schema
  | .mk t f _ d n dep pr req it ah asc en, p => .mk t f p d n dep pr req it ah asc en

def Schema.setDescription : Schema → String → Schema
  | .mk t f p _ n dep pr req it ah asc en, d => .mk t f p d n dep pr req it ah asc en

def Schema.setNullable : Schema → Bool → Schema
  | .mk t f p d _ dep pr req it ah asc en, n => .mk t f p d n dep pr req it ah asc en

def Schema.setDeprecated : Schema → Bool → Schema
  | .mk t f p d n _ pr req it ah asc en, dep => .mk t f p d n dep pr req it ah asc en

def Schema.setProperties : Schema → List (String × (String ⊕ Schema)) → Schema
  | .mk t f p d n dep _ req it ah asc en, pr => .mk t f p d n dep pr req it ah asc en

def Schema.setRequired : Schema → List String → Schema
  | .mk t f p d n dep pr _ it ah asc en, req => .mk t f p d n dep pr req it ah asc en

def Schema.setItems : Schema → Option (String ⊕ Schema) → Schema
  | .mk t f p d n dep pr req _ ah asc en, it => .mk t f p d n dep pr req it ah asc en

def Schema.setAddPropsHas : Schema → Option Bool → Schema
  | .mk t f p d n dep pr req it _ asc en, ah => .mk t f p d n dep pr req it ah asc en

def Schema.setAddPropsSchema : Schema → Option (String ⊕ Schema) → Schema
  | .mk t f p d n dep pr req it ah _ en, asc => .mk t f p d n dep pr req it ah asc en

def Schema.setEnum : Schema → List String → Schema
  | .mk t f p d n dep pr req it ah asc _, en => .mk t f p d n dep pr req it ah asc en

/-- openapi3.NewObjectSchema. -/
def newObjectSchema : Schema := .mk ["object"] "" "" "" false false [] [] none none none []

/-- openapi3.NewStringSchema. -/
def newStringSchema : Schema := .mk ["string"] "" "" "" false false [] [] none none none []

/-- openapi3.NewBoolSchema. -/
def newBoolSchema : Schema := .mk ["boolean"] "" "" "" false false [] [] none none none []

/-- openapi3.NewIntegerSchema. -/
def newIntegerSchema : Schema := .mk ["integer"] "" "" "" false false [] [] none none none []

/-- openapi3.NewFloat64Schema (type number, format double). -/
def newFloat64Schema : Schema := .mk ["number"] "double" "" "" false false [] [] none none none []

/-- openapi3.NewArraySchema. -/
def newArraySchema : Schema := .mk ["array"] "" "" "" false false [] [] none none none []

/-- openapi3.NewDateTimeSchema (type string, format date-time), the default
known-type schema for time.Time. -/
def newDateTimeSchema : Schema := .mk ["string"] "date-time" "" "" false false [] [] none none none []

/-- schema.go shouldBeReferenced: an object schema whose
AdditionalProperties.Schema is nil, or a schema with enum values, is
extracted into the registry and referenced. -/
def shouldBeReferenced (s : Schema) : Bool :=
  if s.type_.contains "object" && s.addPropsSchema.isNone then true
  else if s.enum.length > 0 then true
  else false

/-- schema.go getSchemaReferenceOrValue. -/
def getSchemaReferenceOrValue (name : String) (s : Schema) : String ⊕ Schema :=
  if shouldBeReferenced s then Sum.inl ("#/components/schemas/" ++ name) else Sum.inr s

/-- schema.go newPrimitiveSchema: the openapi3 schema for a primitive route
parameter type; the empty string falls back to a string schema. -/
def newPrimitiveSchema (paramType : String) : Schema :=
  if paramType = "string" then newStringSchema
  else if paramType = "boolean" then newBoolSchema
  else if paramType = "integer" then newIntegerSchema
  else if paramType = "number" then newFloat64Schema
  else if paramType = "" then newStringSchema
  else .mk [paramType] "" "" "" false false [] [] none none none []

/-- One rune of schema.go's `normalizer` strings.Replacer (every pattern of
that replacer is a single rune, so it acts rune-by-rune). -/
def normalizeChar (c : Char) : List Char :=
  if c = '/' then ['_']
  else if c = '.' then ['_']
  else if c = '[' then ['_']
  else if c = ']' then ['_']
  else if c = '·' then ['.']
  else if c = ' ' then []
  else if c = '{' then []
  else if c = '}' then []
  else if c = '(' then []
  else if c = ')' then []
  else if c = '-' then ['_']
  else if c = '*' then []
  else [c]

/-- schema.go `normalizer.Replace`. -/
def normalizerReplace (s : String) : String := ⟨(s.data.map normalizeChar).flatten⟩

/-- strings.Split for a one-rune separator (the only separators this
repository splits on are "," and a newline). -/
def splitOnCharAux (sep : Char) : List Char → List Char → List (List Char)
  | [], acc => [acc.reverse]
  | c :: rest, acc =>
    if c = sep then acc.reverse :: splitOnCharAux sep rest []
    else splitOnCharAux sep rest (c :: acc)

def splitOnChar (sep : Char) (s : String) : List String :=
  (splitOnCharAux sep s.data []).map fun l => ⟨l⟩

/-- strings.HasPrefix. -/
def startsWithStr (s pre : String) : Bool := pre.data.isPrefixOf s.data

/-- strings.HasSuffix. -/
def endsWithStr (s suf : String) : Bool := suf.data.isSuffixOf s.data

/-- strings.TrimSuffix. -/
def trimSuffixStr (s suffix : String) : String :=
  if endsWithStr s suffix then ⟨s.data.take (s.data.length - suffix.data.length)⟩ else s

/-- The whitespace class of strings.TrimSpace (ASCII part). -/
def isGoSpace (c : Char) : Bool :=
  c = ' ' || c = '\t' || c = '\n' || c = '\r' || c = '\x0b' || c = '\x0c'

/-- strings.TrimSpace. -/
def trimSpaceStr (s : String) : String :=
  ⟨((s.data.dropWhile isGoSpace).reverse.dropWhile isGoSpace).reverse⟩

/-- RE2 `\w` (ASCII word character). -/
def isWordChar (c : Char) : Bool := c.isAlpha || c.isDigit || c = '_'

/-- RE2 `\s` (ASCII whitespace class). -/
def isSpaceCharRe (c : Char) : Bool :=
  c = '\t' || c = '\n' || c = '\x0c' || c = '\r' || c = ' '

/-- Splits a maximal `\w+` run off the front of the character list. -/
def takeWordRun : List Char → List Char × List Char
  | [] => ([], [])
  | c :: rest =>
    if isWordChar c then
      let p := takeWordRun rest
      (c :: p.1, p.2)
    else ([], c :: rest)

/-- Greedy `.*}]` after the opening brace of the `Identifier[struct{...}]`
regular expression of schema.go: consumes up to the last `}]` on the current
line (`.` does not cross a newline) and returns what follows; `none` when no
`}]` occurs before the next newline. -/
def splitAtLastClose : List Char → Option (List Char × List Char)
  | [] => none
  | [_] => none
  | c :: c2 :: rest =>
    if c = '\n' then none
    else if c = '}' && c2 = ']' then
      match splitAtLastClose rest with
      | some p => some ('}' :: ']' :: p.1, p.2)
      | none => some ([], rest)
    else
      match splitAtLastClose (c2 :: rest) with
      | some p => some (c :: p.1, p.2)
      | none => none

/-- Tries to match schema.go's regular expression
`(\w+)\[struct\s*{.*}\]` at the head of the list. On success returns the
replacement text for the match (the `${1}[struct]` of ReplaceAllString)
together with the characters after the match. -/
def tryMatchAnon (l : List Char) : Option (List Char × List Char) :=
  let p := takeWordRun l
  if p.1.isEmpty then none
  else if "[struct".data.isPrefixOf p.2 then
    let rest2 := (p.2.drop 7).dropWhile isSpaceCharRe
    match rest2 with
    | c :: rest3 =>
      if c = '{' then
        match splitAtLastClose rest3 with
        | some q => some (p.1 ++ "[struct]".data, q.2)
        | none => none
      else none
    | [] => none
  else none

/-- regexp MatchString for `(\w+)\[struct\s*{.*}\]`: a match starts at some
position of the string. -/
def matchesAnonListAux : List Char → Bool
  | [] => false
  | c :: rest => (tryMatchAnon (c :: rest)).isSome || matchesAnonListAux rest

/-- Whether a declared type name embeds an inline anonymous struct signature
(schema.go's `re.MatchString(name)` for `(\w+)\[struct\s*{.*}\]`). These are
the names the naming engine makes unique with a timestamp instead of keeping
deterministic. -/
def matchesAnonStructPattern (s : String) : Bool := matchesAnonListAux s.data

/-- regexp ReplaceAllString for the pattern above with `${1}[struct]`:
scans left to right, replacing each non-overlapping match. The fuel is the
input length; every step consumes at least one character. -/
def reAnonReplaceAux : Nat → List Char → List Char
  | 0, l => l
  | _, [] => []
  | fuel + 1, c :: rest =>
    match tryMatchAnon (c :: rest) with
    | some p => p.1 ++ reAnonReplaceAux fuel p.2
    | none => c :: reAnonReplaceAux fuel rest

def reAnonReplaceString (s : String) : String := ⟨reAnonReplaceAux s.data.length s.data⟩

/-- strings.ReplaceAll (for a non-empty pattern), fuelled by input length. -/
def replaceAllAux (pat rep : List Char) : Nat → List Char → List Char
  | 0, l => l
  | _, [] => []
  | fuel + 1, c :: rest =>
    if !pat.isEmpty && pat.isPrefixOf (c :: rest) then
      rep ++ replaceAllAux pat rep fuel ((c :: rest).drop pat.length)
    else c :: replaceAllAux pat rep fuel rest

def replaceAllString (s patStr rep : String) : String :=
  ⟨replaceAllAux patStr.data rep.data s.data.length s.data⟩

/-- schema.go (*API).normalizeTypeName. `strip` is api.StripPkgPaths and
`now` stands for time.Now().UnixMicro() in the anonymous-struct branch. -/
def normalizeTypeName (strip : List String) (now : Nat) (pkgPath nm : String) : String :=
  let omitPackage := strip.any (fun pkg => startsWithStr pkgPath pkg)
  let nm :=
    if matchesAnonStructPattern nm then
      replaceAllString (reAnonReplaceString nm) "[struct]" ("[struct_" ++ toString now ++ "]")
    else nm
  let typeName := normalizerReplace (pkgPath ++ "/" ++ nm)
  let typeName := if omitPackage || pkgPath = "" then normalizerReplace nm else typeName
  let typeName := trimSuffixStr typeName "_"
  trimSuffixStr typeName "."

/-- One visible struct field of a Go type: `fname` is the Go field name,
`tag` the value of the json struct tag (empty when absent), `ftype` the
type id of the field's type, and the flags model reflect's IsExported and
Anonymous. -/
structure GoField : Type where
  fname : String
  tag : String
  ftype : Nat
  exported : Bool
  anonymous : Bool
  deriving DecidableEq

/-- The kind-level shape of a Go type, the part of reflect.Type
RegisterModel dispatches on. Element, pointee, key and value types are
type ids into the graph, which lets the graph contain true cycles.
`otherK` stands for every kind RegisterModel's switch does not handle
(chan, func, complex, unsafe pointer). -/
inductive TypeShape : Type where
  | stringK
  | boolK
  | intK
  | floatK
  | ifaceK
  | sliceK (elem : Nat)
  | ptrK (elem : Nat)
  | mapK (key : Nat) (value : Nat)
  | structK (fields : List GoField)
  | otherK

/-- One node of the type graph: reflect's PkgPath, Name, String and Kind
(plus kind payload). -/
structure TypeInfo : Type where
  pkgPath : String
  tname : String
  goString : String
  shape : TypeShape

/-- The read-only data of one generation run: the type graph, the
per-type CustomSchemaApplier callbacks picked up by modelFromType, the
API's KnownTypes, StripPkgPaths and ApplyCustomSchemaToType hook, the
comment source behind parser.Get, and the model of time.Now(). -/
structure Ctx : Type where
  types : Nat → TypeInfo
  callback : Nat → Option (Schema → Schema)
  known : List (Nat × Schema)
  stripPkgPaths : List String
  applyCustomSchemaToType : Option (Nat → Schema → Schema)
  pkgComments : String → Except String (List (String × String))
  now : Nat

/-- The mutable state RegisterModel threads: api.models and api.comments. -/
structure RegState : Type where
  models : List (String × Schema)
  comments : List (String × List (String × String))

/-- api.go Model: a type id paired with its optional ApplyCustomSchema
callback. -/
structure GoModel : Type where
  mtype : Nat
  cb : Option (Schema → Schema)

/-- api.go modelFromType. -/
def modelFromType (ctx : Ctx) (t : Nat) : GoModel := ⟨t, ctx.callback t⟩

/-- schema.go isFieldRequired. -/
def isFieldRequired (isPointer hasOmitEmpty : Bool) : Bool := !(isPointer || hasOmitEmpty)

/-- schema.go isMarkedAsDeprecated. -/
def isMarkedAsDeprecated (comment : String) : Bool :=
  (splitOnChar '\n' comment).any
    (fun line => "Deprecated:".data.isPrefixOf (trimSpaceStr line).data)

/-- schema.go WithNullable, the ModelOpts the pointer case passes down. -/
def withNullableOpt : Schema → Schema := fun s => s.setNullable true

/-- schema.go (*API).getModelName, with `ctx.now` standing for the
timestamp that names fully anonymous struct types. -/
def getModelName (ctx : Ctx) (t : Nat) : String :=
  let info := ctx.types t
  let pkgPath := info.pkgPath
  let typeName := info.tname
  let pkgPath :=
    match info.shape with
    | .ptrK e => (ctx.types e).pkgPath
    | _ => pkgPath
  let typeName :=
    match info.shape with
    | .ptrK e => (ctx.types e).tname ++ "Ptr"
    | _ => typeName
  let typeName :=
    match info.shape with
    | .mapK k v => "map[" ++ (ctx.types k).tname ++ "]" ++ (ctx.types v).tname
    | _ => typeName
  let typeName :=
    match info.shape, typeName with
    | .structK _, "" => "Struct_" ++ toString ctx.now
    | _, tn => tn
  let schemaName := normalizeTypeName ctx.stripPkgPaths ctx.now pkgPath typeName
  if typeName = "" then "AnonymousType" else schemaName

/-- schema.go (*API).getCommentsForPackage: consult the api.comments cache,
else fetch through parser.Get (the context's comment source) and cache. -/
def getCommentsForPackage (ctx : Ctx) (st : RegState) (pkg : String) :
    RegState × Except String (List (String × String)) :=
  match lookupKV st.comments pkg with
  | some pc => (st, .ok pc)
  | none =>
    match ctx.pkgComments pkg with
    | .error e => (st, .error e)
    | .ok pc => ({ st with comments := upsertKV st.comments pkg pc }, .ok pc)

/-- schema.go (*API).getTypeFieldComment: the comment text and deprecation
flag for pkg.Type.Field (an absent entry is the empty comment). -/
def getTypeFieldComment (ctx : Ctx) (st : RegState) (pkg nm fld : String) :
    RegState × Except String (String × Bool) :=
  match getCommentsForPackage ctx st pkg with
  | (st1, .error e) => (st1, .error e)
  | (st1, .ok pc) =>
    let comment := (lookupKV pc (pkg ++ "." ++ nm ++ "." ++ fld)).getD ""
    (st1, .ok (comment, isMarkedAsDeprecated comment))

/-- whether a type's kind is reflect.Pointer. -/
def isPtrShape (ctx : Ctx) (t : Nat) : Bool :=
  match (ctx.types t).shape with
  | .ptrK _ => true
  | _ => false

/-- whether a type's kind is reflect.String (the map-key check). -/
def isStringKind (ctx : Ctx) (t : Nat) : Bool :=
  match (ctx.types t).shape with
  | .stringK => true
  | _ => false

/-- The result quadruple of one RegisterModel call: the state after the
call and Go's three return values (name, schema, err), with `none`
modelling a nil schema pointer and a nil error. -/
abbrev RmOut : Type := RegState × String × Option Schema × Option String

/-- The struct-field loop of RegisterModel (schema.go lines 388-430).
`recur` is the recursive RegisterModel call at one less fuel. Returns the
state, the struct schema built so far and an optional error; `none` is
fuel exhaustion inside a recursive call. The "nil schema" error is
unreachable (a successful RegisterModel always returns a schema) and
models the nil dereference Go would hit there. -/
def structLoop (ctx : Ctx)
    (recur : RegState → GoModel → List (Schema → Schema) → Option RmOut)
    (tPkg tName tGoString tCompName : String) :
    List GoField → RegState → Schema → Option (RegState × Schema × Option String)
  | [], st, schema => some (st, schema, none)
  | f :: rest, st, schema =>
    if !f.exported then structLoop ctx recur tPkg tName tGoString tCompName rest st schema
    else
      let jsonTags := splitOnChar ',' f.tag
      let fieldName0 := jsonTags.headD ""
      let fieldName := if fieldName0 = "" then f.fname else fieldName0
      let alreadyExists := (lookupKV st.models (getModelName ctx f.ftype)).isSome
      match recur st (modelFromType ctx f.ftype) [] with
      | none => none
      | some (st1, fieldSchemaName, osch, oerr) =>
        match oerr with
        | some e =>
          some (st1, schema, some ("error getting schema for type \"" ++ tGoString ++
            "\", field \"" ++ fieldName ++ "\", failed to get schema for embedded type \"" ++
            (ctx.types f.ftype).goString ++ "\": " ++ e))
        | none =>
          match osch with
          | none => some (st1, schema, some "nil schema")
          | some fieldSchema =>
            if f.anonymous then
              let st2 :=
                if !alreadyExists then
                  { st1 with models := removeKV st1.models fieldSchemaName }
                else st1
              let schema1 := schema.setProperties
                (fieldSchema.properties.foldl (fun acc kv => upsertKV acc kv.1 kv.2)
                  schema.properties)
              let schema2 := schema1.setRequired (schema1.required ++ fieldSchema.required)
              structLoop ctx recur tPkg tName tGoString tCompName rest st2 schema2
            else
              let refv := getSchemaReferenceOrValue fieldSchemaName fieldSchema
              match refv with
              | Sum.inl refName =>
                let schema1 := schema.setProperties
                  (upsertKV schema.properties fieldName (Sum.inl refName))
                let schema2 :=
                  if isFieldRequired (isPtrShape ctx f.ftype) (jsonTags.contains "omitempty")
                  then schema1.setRequired (schema1.required ++ [fieldName])
                  else schema1
                structLoop ctx recur tPkg tName tGoString tCompName rest st1 schema2
              | Sum.inr v =>
                match getTypeFieldComment ctx st1 tPkg tName f.fname with
                | (st2, .error e) =>
                  some (st2, schema, some ("failed to get comments for field \"" ++
                    fieldName ++ "\" in type \"" ++ tCompName ++ "\": " ++ e))
                | (st2, .ok cd) =>
                  let v1 := (v.setDescription cd.1).setDeprecated cd.2
                  let schema1 := schema.setProperties
                    (upsertKV schema.properties fieldName (Sum.inr v1))
                  let schema2 :=
                    if isFieldRequired (isPtrShape ctx f.ftype) (jsonTags.contains "omitempty")
                    then schema1.setRequired (schema1.required ++ [fieldName])
                    else schema1
                  structLoop ctx recur tPkg tName tGoString tCompName rest st2 schema2

/-- schema.go (*API).RegisterModel, fuel-indexed: `none` means the fuel ran
out, i.e. the call chain was still recursing after `fuel` nested
RegisterModel calls; `some (st, name, schema, err)` mirrors Go's state
mutation and triple return. The switch either returns early (Sum.inl,
the `return` statements inside the switch) or falls through (Sum.inr) to
the nil-check, the customisation hooks, the call-site options and the
final registration decision, exactly as the Go control flow does (note
the pointer case falls through, re-applying the hooks and registering
under the pointee's name). -/
def registerModelF (ctx : Ctx) : Nat → RegState → GoModel → List (Schema → Schema) → Option RmOut
  | 0, _, _, _ => none
  | fuel + 1, st, m, opts =>
    let t := m.mtype
    let info := ctx.types t
    let name := getModelName ctx t
    match lookupKV st.models name with
    | some s => some (st, name, some s, none)
    | none =>
      match lookupKV ctx.known t with
      | some ks =>
        if shouldBeReferenced ks then
          some ({ st with models := upsertKV st.models name ks }, name, some ks, none)
        else some (st, name, some ks, none)
      | none =>
        let sw : Option (RmOut ⊕ RmOut) :=
          match info.shape with
          | .sliceK e =>
            match registerModelF ctx fuel st (modelFromType ctx e) [] with
            | none => none
            | some (st1, en, oes, oee) =>
              match oee with
              | some e1 => some (Sum.inl (st1, name, none,
                  some ("error getting schema of slice element " ++
                    (ctx.types e).goString ++ ": " ++ e1)))
              | none =>
                match oes with
                | none => some (Sum.inl (st1, name, none, some "nil schema"))
                | some es => some (Sum.inr (st1, name,
                    some ((newArraySchema.setNullable true).setItems
                      (some (getSchemaReferenceOrValue en es))), none))
          | .ifaceK => some (Sum.inr (st, name,
              some ((newObjectSchema.setDescription
                "interface\x7b\x7d type (accepts any value)").setAddPropsHas (some true)),
              none))
          | .stringK => some (Sum.inr (st, name, some newStringSchema, none))
          | .intK => some (Sum.inr (st, name, some newIntegerSchema, none))
          | .floatK => some (Sum.inr (st, name, some newFloat64Schema, none))
          | .boolK => some (Sum.inr (st, name, some newBoolSchema, none))
          | .ptrK e =>
            match registerModelF ctx fuel st (modelFromType ctx e) [withNullableOpt] with
            | none => none
            | some r => some (Sum.inr r)
          | .mapK k v =>
            if !isStringKind ctx k then
              some (Sum.inl (st, name, none,
                some ("maps must have a string key, but this map is of type \"" ++
                  (ctx.types k).goString ++ "\"")))
            else
              match registerModelF ctx fuel st (modelFromType ctx v) [] with
              | none => none
              | some (st1, en, oes, oee) =>
                match oee with
                | some e1 => some (Sum.inl (st1, name, none,
                    some ("error getting schema of map value element " ++
                      (ctx.types v).goString ++ ": " ++ e1)))
                | none =>
                  match oes with
                  | none => some (Sum.inl (st1, name, none, some "nil schema"))
                  | some es => some (Sum.inr (st1, name,
                      some ((newObjectSchema.setNullable true).setAddPropsSchema
                        (some (getSchemaReferenceOrValue en es))), none))
          | .structK fields =>
            match structLoop ctx (registerModelF ctx fuel) info.pkgPath info.tname
                info.goString name fields st (newObjectSchema.setProperties []) with
            | none => none
            | some (st1, s1, some e1) => some (Sum.inl (st1, name, some s1, some e1))
            | some (st1, s1, none) => some (Sum.inr (st1, name, some s1, none))
          | .otherK => some (Sum.inr (st, name, none, none))
        match sw with
        | none => none
        | some (Sum.inl r) => some r
        | some (Sum.inr (st1, name1, oschema, errv)) =>
          match oschema with
          | none => some (st1, name1, none,
              some ("unsupported type: " ++ info.pkgPath ++ "/" ++ info.tname))
          | some sch0 =>
            let sch1 :=
              match ctx.applyCustomSchemaToType with
              | some h => h t sch0
              | none => sch0
            let sch2 :=
              match m.cb with
              | some f => f sch1
              | none => sch1
            let sch := opts.foldl (fun s o => o s) sch2
            if shouldBeReferenced sch then
              some ({ st1 with models := upsertKV st1.models name1 sch }, name1, some sch, errv)
            else some (st1, name1, some sch, errv)

/-- The openapi3.Parameter subset createOpenAPI fills for route parameters. -/
structure ParamObj : Type where
  name : String
  location : String
  description : String
  required : Bool
  allowEmptyValue : Bool
  schema : Schema

/-- api.go PathParam. -/
structure PathParamSpec : Type where
  description : String
  regexp : String
  type_ : String
  applyCustomSchema : Option (ParamObj → ParamObj)

/-- api.go QueryParam. -/
structure QueryParamSpec : Type where
  description : String
  regexp : String
  required : Bool
  allowEmpty : Bool
  type_ : String
  applyCustomSchema : Option (ParamObj → ParamObj)

/-- api.go HeaderParam. -/
structure HeaderParamSpec : Type where
  description : String
  required : Bool
  type_ : String
  applyCustomSchema : Option (ParamObj → ParamObj)

/-- The query-parameter construction of createOpenAPI (schema.go lines
84-101): primitive schema with pattern, description, required and
allow-empty flags, then the per-parameter customisation hook. -/
def buildQueryParam (k : String) (v : QueryParamSpec) : ParamObj :=
  let ps := (newPrimitiveSchema v.type_).setPat v.regexp
  let p : ParamObj := ⟨k, "query", v.description, v.required, v.allowEmpty, ps⟩
  match v.applyCustomSchema with
  | some f => f p
  | none => p

/-- The path-parameter construction of createOpenAPI (schema.go lines
104-119); openapi3.NewPathParameter marks every path parameter required. -/
def buildPathParam (k : String) (v : PathParamSpec) : ParamObj :=
  let ps := (newPrimitiveSchema v.type_).setPat v.regexp
  let p : ParamObj := ⟨k, "path", v.description, true, false, ps⟩
  match v.applyCustomSchema with
  | some f => f p
  | none => p

/-- The header-parameter construction of createOpenAPI (schema.go lines
122-136). -/
def buildHeaderParam (k : String) (v : HeaderParamSpec) : ParamObj :=
  let ps := newPrimitiveSchema v.type_
  let p : ParamObj := ⟨k, "header", v.description, v.required, false, ps⟩
  match v.applyCustomSchema with
  | some f => f p
  | none => p

/-- api.go Model as stored in a route's Models: `mtype` is the type id of
the non-nil reflect.Type (a request with nil Type is modelled as the
absence of this record). -/
structure RouteModelRef : Type where
  mtype : Nat
  cb : Option (Schema → Schema)

/-- api.go Params. -/
structure ParamsM : Type where
  path : List (String × PathParamSpec)
  query : List (String × QueryParamSpec)
  header : List (String × HeaderParamSpec)

/-- api.go Models: `request = none` models Request.Type == nil. -/
structure ModelsM : Type where
  request : Option RouteModelRef
  responses : List (Nat × RouteModelRef)
  responseHeaders : List (Nat × List (String × HeaderParamSpec))

/-- api.go Route. -/
structure RouteM : Type where
  method : String
  pattern : String
  params : ParamsM
  models : ModelsM
  tags : List String
  operationId : String
  description : String
  summary : String
  deprecated : Bool

/-- api.go mergeMap: copy into `into` exactly the entries of `from1` whose
key is absent. -/
def mergeMap {κ α : Type} [DecidableEq κ] (into from1 : List (κ × α)) : List (κ × α) :=
  from1.foldl
    (fun acc kv => if (lookupKV acc kv.1).isSome then acc else upsertKV acc kv.1 kv.2) into

/-- The route-level effect of api.go (*API).Merge on the route it updates. -/
def mergeRoute (toUpdate r : RouteM) : RouteM :=
  { toUpdate with
    params := ⟨mergeMap toUpdate.params.path r.params.path,
               mergeMap toUpdate.params.query r.params.query,
               mergeMap toUpdate.params.header r.params.header⟩,
    models := { toUpdate.models with
      request :=
        match toUpdate.models.request with
        | none => r.models.request
        | some q => some q,
      responses := mergeMap toUpdate.models.responses r.models.responses } }

/-- api.go (*API).Route's freshly created route. -/
def newRouteM (method pat : String) : RouteM :=
  ⟨method, pat, ⟨[], [], []⟩, ⟨none, [], []⟩, [], "", "", "", false⟩

/-- api.go (*API).Merge at the API level: upsert the route for the
argument's method and pattern (api.Route) and merge into it. The routes
table maps a pattern to a method-to-route table. -/
def apiMergeRoutes (routes : List (String × List (String × RouteM))) (r : RouteM) :
    List (String × List (String × RouteM)) :=
  let m2r := (lookupKV routes r.pattern).getD []
  let toUpdate := (lookupKV m2r r.method).getD (newRouteM r.method r.pattern)
  upsertKV routes r.pattern (upsertKV m2r r.method (mergeRoute toUpdate r))

/-- The serialized name of a struct field: the first component of the json
tag, else the Go field name (schema.go lines 394-398). -/
def serializedName (f : GoField) : String :=
  let n0 := (splitOnChar ',' f.tag).headD ""
  if n0 = "" then f.fname else n0

/-- Whether the json tag carries an omitempty component (schema.go line 426). -/
def hasOmitEmptyTag (f : GoField) : Bool := (splitOnChar ',' f.tag).contains "omitempty"

/-- The serialized names RegisterModel's struct case appends to `required`,
in field order. -/
def reqNames (ctx : Ctx) (fs : List GoField) : List String :=
  fs.filterMap fun f =>
    if f.exported && !f.anonymous &&
        isFieldRequired (isPtrShape ctx f.ftype) (hasOmitEmptyTag f)
    then some (serializedName f) else none

/-- The serialized names of the exported fields, in field order. -/
def exportedNames (fs : List GoField) : List String :=
  fs.filterMap fun f => if f.exported then some (serializedName f) else none

/-- Termination of RegisterModel on type id `t` from state `st`: some
finite nesting depth of recursive calls suffices for the call to return. -/
def RegisterTerminates (ctx : Ctx) (st : RegState) (t : Nat) : Prop :=
  ∃ fuel r, registerModelF ctx fuel st (modelFromType ctx t) [] = some r

/-- The empty registration state of a fresh API. -/
def stEmpty : RegState := ⟨[], []⟩

/-- A type graph with a true reference cycle: type A (id 0) has a field of
type *B (id 1 pointing at id 2), and type B has a field of type *A
(id 3 pointing back at id 0). -/
def cycTypes : Nat → TypeInfo
  | 0 => ⟨"p", "A", "p.A", .structK [⟨"B", "", 1, true, false⟩]⟩
  | 1 => ⟨"", "", "*p.B", .ptrK 2⟩
  | 2 => ⟨"p", "B", "p.B", .structK [⟨"A", "", 3, true, false⟩]⟩
  | _ => ⟨"", "", "*p.A", .ptrK 0⟩

/-- A default API over the cyclic graph: no callbacks, no known types, no
strip list, no customisation hook, empty comment source. -/
def cycCtx : Ctx := ⟨cycTypes, fun _ => none, [], [], none, fun _ => .ok [], 0⟩

/-- A small acyclic type graph used by concrete instances: a struct T with
one string field (0), a pointer to it (1), string (2), int (3), *string
(4), map with int keys (5), map with string keys (6), the empty
interface (7), a struct W with a plain string field and a *string field
(8), and a struct Outer (9) embedding a struct Embedded (10)
anonymously. -/
def exTypes : Nat → TypeInfo
  | 0 => ⟨"p", "T", "p.T", .structK [⟨"X", "", 2, true, false⟩]⟩
  | 1 => ⟨"", "", "*p.T", .ptrK 0⟩
  | 2 => ⟨"", "string", "string", .stringK⟩
  | 3 => ⟨"", "int", "int", .intK⟩
  | 4 => ⟨"", "", "*string", .ptrK 2⟩
  | 5 => ⟨"", "", "map[int]string", .mapK 3 2⟩
  | 6 => ⟨"", "", "map[string]int", .mapK 2 3⟩
  | 7 => ⟨"", "", "interface \x7b\x7d", .ifaceK⟩
  | 8 => ⟨"p", "W", "p.W", .structK [⟨"A", "", 2, true, false⟩, ⟨"B", "", 4, true, false⟩]⟩
  | 9 => ⟨"p", "Outer", "p.Outer", .structK [⟨"Embedded", "", 10, true, true⟩]⟩
  | 10 => ⟨"p", "Embedded", "p.Embedded", .structK [⟨"Name", "", 2, true, false⟩]⟩
  | _ => ⟨"", "", "", .otherK⟩

/-- A default API over `exTypes`. -/
def exCtx : Ctx := ⟨exTypes, fun _ => none, [], [], none, fun _ => .ok [], 0⟩

/-- The same API with a global per-type hook and per-type callbacks
configured, used to observe that a registry cache hit applies neither. -/
def exCtxHooked : Ctx :=
  ⟨exTypes, fun _ => some (fun s => s.setDescription "per-type callback ran"), [], [],
    some (fun _ s => s.setDescription "global hook ran"), fun _ => .ok [], 0⟩

/-- The schema RegisterModel derives for struct T of `exTypes`. -/
def exTSchema : Schema :=
  .mk ["object"] "" "" "" false false [("X", Sum.inr newStringSchema)] ["X"] none none none []

/-- The open object schema RegisterModel derives for the empty interface. -/
def ifaceOpenSchema : Schema :=
  (newObjectSchema.setDescription "interface\x7b\x7d type (accepts any value)").setAddPropsHas
    (some true)

/-- The schema RegisterModel derives for struct W of `exTypes` (a plain
string field A and a pointer field B). -/
def exWSchema : Schema :=
  .mk ["object"] "" "" "" false false
    [("A", Sum.inr newStringSchema), ("B", Sum.inr (newStringSchema.setNullable true))]
    ["A"] none none none []

/-- The schema RegisterModel derives for struct Embedded of `exTypes`. -/
def exEmbeddedSchema : Schema :=
  .mk ["object"] "" "" "" false false [("Name", Sum.inr newStringSchema)] ["Name"] none none none []

/-- The schema RegisterModel derives for map with string keys and int
values over `exTypes`. -/
def exMapSchema : Schema :=
  (newObjectSchema.setNullable true).setAddPropsSchema (some (Sum.inr newIntegerSchema))

/-- An existing route for the C10 witness. -/
def c10T0 : RouteM :=
  ⟨"GET", "/topic", ⟨[("id", ⟨"old id", "", "", none⟩)], [], []⟩,
    ⟨some ⟨0, none⟩, [(200, ⟨0, none⟩)], []⟩, ["t"], "op", "desc", "sum", false⟩

/-- The route merged into `c10T0` by the C10 witness. -/
def c10R : RouteM :=
  ⟨"GET", "/topic", ⟨[("id", ⟨"new id", "", "", none⟩), ("y", ⟨"y", "", "", none⟩)], [], []⟩,
    ⟨some ⟨1, none⟩, [(200, ⟨1, none⟩), (500, ⟨1, none⟩)], []⟩, [], "", "", "", false⟩

/-- The routes table of the C10 witness. -/
def c10Routes : List (String × List (String × RouteM)) := [("/topic", [("GET", c10T0)])]

theorem nullable_setNullable (s : Schema) (b : Bool) : (s.setNullable b).nullable = b := by
  cases s; rfl

theorem type_setPat (s : Schema) (p : String) : (s.setPat p).type_ = s.type_ := by
  cases s; rfl

theorem required_setRequired (s : Schema) (r : List String) : (s.setRequired r).required = r := by
  cases s; rfl

theorem properties_setRequired (s : Schema) (r : List String) :
    (s.setRequired r).properties = s.properties := by
  cases s; rfl

theorem required_setProperties (s : Schema) (p : List (String × (String ⊕ Schema))) :
    (s.setProperties p).required = s.required := by
  cases s; rfl

theorem properties_setProperties (s : Schema) (p : List (String × (String ⊕ Schema))) :
    (s.setProperties p).properties = p := by
  cases s; rfl

theorem lookupKV_upsert_self {κ α : Type} [DecidableEq κ] (l : List (κ × α)) (k : κ) (v : α) :
    lookupKV (upsertKV l k v) k = some v := by
  induction l with
  | nil => simp [lookupKV, upsertKV]
  | cons hd tl ih =>
    obtain ⟨k0, v0⟩ := hd
    by_cases h : k0 = k
    · simp [lookupKV, upsertKV, h]
    · simp [lookupKV, upsertKV, h, ih]

theorem lookupKV_upsert_ne {κ α : Type} [DecidableEq κ] (l : List (κ × α)) (k k1 : κ) (v : α)
    (h : k1 ≠ k) : lookupKV (upsertKV l k v) k1 = lookupKV l k1 := by
  induction l with
  | nil => simp [lookupKV, upsertKV, Ne.symm h]
  | cons hd tl ih =>
    obtain ⟨k0, v0⟩ := hd
    by_cases h0 : k0 = k
    · subst h0
      simp [lookupKV, upsertKV, Ne.symm h]
    · simp only [upsertKV, if_neg h0, lookupKV]
      by_cases h1 : k0 = k1
      · simp [h1]
      · simp [h1, ih]

theorem lookupKV_remove_self {κ α : Type} [DecidableEq κ] (l : List (κ × α)) (k : κ) :
    lookupKV (removeKV l k) k = none := by
  induction l with
  | nil => simp [lookupKV, removeKV]
  | cons hd tl ih =>
    obtain ⟨k0, v0⟩ := hd
    by_cases h : k0 = k
    · simp [removeKV, h, ih]
    · simp [removeKV, lookupKV, h, ih]

theorem lookupKV_remove_ne {κ α : Type} [DecidableEq κ] (l : List (κ × α)) (k k1 : κ)
    (h : k1 ≠ k) : lookupKV (removeKV l k) k1 = lookupKV l k1 := by
  induction l with
  | nil => simp [removeKV]
  | cons hd tl ih =>
    obtain ⟨k0, v0⟩ := hd
    by_cases h0 : k0 = k
    · subst h0
      simp [removeKV, lookupKV, Ne.symm h, ih]
    · simp only [removeKV, if_neg h0, lookupKV]
      by_cases h1 : k0 = k1
      · simp [h1]
      · simp [h1, ih]

/-- C5: the Naming Engine is deterministic for non-anonymous names. A
declared name is anonymous when it embeds an inline anonymous struct
signature (the `Identifier[struct{...}]` pattern, the only place
normalizeTypeName consults the clock); for every other name the result
does not depend on the timestamp, so two calls with the identical
(packagePath, declaredName) pair in the same run return byte-identical
Component Names. -/
theorem c5_naming_deterministic (strip : List String) (pkgPath nm : String) (now1 now2 : Nat)
    (h : matchesAnonStructPattern nm = false) :
    normalizeTypeName strip now1 pkgPath nm = normalizeTypeName strip now2 pkgPath nm := by
  simp [normalizeTypeName, h]

/-- Witness for C5 at the concrete pair ("github.com/x", "Topic") and two
different timestamps. -/
theorem c5_naming_deterministic_witness :
    normalizeTypeName [] 1 "github.com/x" "Topic" =
      normalizeTypeName [] 999 "github.com/x" "Topic" :=
  c5_naming_deterministic [] "github.com/x" "Topic" 1 999 (by decide)

/-- C8: a route parameter spec (path, query or header) whose Type field is
the empty string gets a string-typed schema: newPrimitiveSchema treats ""
exactly like "string" rather than erroring. (The per-parameter
customisation hook is absent, as the claim speaks about the generated
parameter object itself.) -/
theorem c8_empty_param_type_is_string (k : String) (q : QueryParamSpec) (p : PathParamSpec)
    (hd : HeaderParamSpec)
    (hq : q.type_ = "") (hqc : q.applyCustomSchema = none)
    (hp : p.type_ = "") (hpc : p.applyCustomSchema = none)
    (hh : hd.type_ = "") (hhc : hd.applyCustomSchema = none) :
    (buildQueryParam k q).schema.type_ = ["string"] ∧
    (buildPathParam k p).schema.type_ = ["string"] ∧
    (buildHeaderParam k hd).schema.type_ = ["string"] := by
  refine ⟨?_, ?_, ?_⟩
  · unfold buildQueryParam
    rw [hqc, hq]
    rfl
  · unfold buildPathParam
    rw [hpc, hp]
    rfl
  · unfold buildHeaderParam
    rw [hhc, hh]
    rfl

/-- Witness for C8 at concrete empty-typed parameter specs. -/
theorem c8_empty_param_type_is_string_witness :
    (buildQueryParam "limit" ⟨"d", "", true, false, "", none⟩).schema.type_ = ["string"] ∧
    (buildPathParam "id" ⟨"d", "", "", none⟩).schema.type_ = ["string"] ∧
    (buildHeaderParam "tk" ⟨"d", true, "", none⟩).schema.type_ = ["string"] :=
  c8_empty_param_type_is_string "limit" ⟨"d", "", true, false, "", none⟩ ⟨"d", "", "", none⟩
    ⟨"d", true, "", none⟩ rfl rfl rfl rfl rfl rfl

/-- C9: when the model's Component Name is already in the registry,
RegisterModel returns the cached Schema Node at once: the state (registry
and comment cache) is returned unchanged, and the result does not depend
on the global per-type hook, the model's own callback or the call-site
options — none of them run. -/
theorem c9_cache_hit_frame (ctx : Ctx) (fuel : Nat) (st : RegState) (t : Nat)
    (cb : Option (Schema → Schema)) (opts : List (Schema → Schema)) (s : Schema)
    (h : lookupKV st.models (getModelName ctx t) = some s) :
    registerModelF ctx (fuel + 1) st ⟨t, cb⟩ opts =
      some (st, getModelName ctx t, some s, none) := by
  simp only [registerModelF]
  rw [h]

/-- Witness for C9: with a hooked API (global hook and per-type callback
both set), a nontrivial callback and a nontrivial option, a cache hit on
"p_T" still returns the cached schema and the untouched state. -/
theorem c9_cache_hit_frame_witness :
    registerModelF exCtxHooked 4 ⟨[("p_T", exTSchema)], []⟩
        ⟨0, some (fun s => s.setEnum ["x"])⟩ [withNullableOpt] =
      some (⟨[("p_T", exTSchema)], []⟩, getModelName exCtxHooked 0, some exTSchema, none) :=
  c9_cache_hit_frame exCtxHooked 3 ⟨[("p_T", exTSchema)], []⟩ 0
    (some (fun s => s.setEnum ["x"])) [withNullableOpt] exTSchema rfl

/-- C1 (amended): the registry cache does bound resolution whenever the
Component Name has already been registered — such a resolution returns
within one step, with the cached Schema Node. (The cache cannot, however,
stop a true reference cycle: a name is registered only after its
resolution completes, so re-encountering an in-progress name re-enters
resolution; see the counterexample.) -/
theorem c1_cached_name_terminates (ctx : Ctx) (st : RegState) (t : Nat) (s : Schema)
    (h : lookupKV st.models (getModelName ctx t) = some s) :
    RegisterTerminates ctx st t := by
  refine ⟨1, (st, getModelName ctx t, some s, none), ?_⟩
  simp only [registerModelF, modelFromType]
  rw [h]

/-- Witness for C1: a registry that already holds "p_T" makes resolution
of struct T terminate. -/
theorem c1_cached_name_terminates_witness :
    RegisterTerminates exCtx ⟨[("p_T", exTSchema)], []⟩ 0 :=
  c1_cached_name_terminates exCtx ⟨[("p_T", exTSchema)], []⟩ 0 exTSchema rfl

/-- C2 (amended): a resolved sub-schema is registered and replaced by a
symbolic reference at its use site iff it is an object-shaped schema whose
additionalProperties carries no value schema, or it has enum values. The
open additionalProperties flag (Has = true) does not block registration:
shouldBeReferenced only inspects AdditionalProperties.Schema, so the
interface open-object schema is referenced and registered (see the
counterexample). -/
theorem c2_referencing_rule :
    (∀ s : Schema, shouldBeReferenced s = true ↔
      ((s.type_.contains "object" = true ∧ s.addPropsSchema = none) ∨ s.enum ≠ [])) ∧
    (∀ (name : String) (s : Schema),
      getSchemaReferenceOrValue name s =
        if shouldBeReferenced s then Sum.inl ("#/components/schemas/" ++ name)
        else Sum.inr s) := by
  constructor
  · intro s
    have hb : shouldBeReferenced s =
        ((s.type_.contains "object" && s.addPropsSchema.isNone) || !s.enum.isEmpty) := by
      unfold shouldBeReferenced
      cases h1 : (s.type_.contains "object" && s.addPropsSchema.isNone) <;>
        cases h2 : s.enum.isEmpty <;>
          simp_all [List.isEmpty_iff, List.length_pos]
    rw [hb]
    simp [Option.isNone_iff_eq_none, List.isEmpty_iff]
  · intro name s
    rfl

/-- Counterexample for C2: resolving the empty interface type produces the
open object schema (additionalProperties = true) and DOES register it, as
the reusable component "AnonymousType" — shouldBeReferenced holds for it
because only AdditionalProperties.Schema (nil here), not the open Has
flag, is consulted. -/
theorem c2_interface_registered :
    registerModelF exCtx 1 stEmpty ⟨7, none⟩ [] =
      some (⟨[("AnonymousType", ifaceOpenSchema)], []⟩, "AnonymousType",
        some ifaceOpenSchema, none) ∧
    ifaceOpenSchema.addPropsHas = some true ∧
    ifaceOpenSchema.enum = [] ∧
    shouldBeReferenced ifaceOpenSchema = true :=
  ⟨rfl, rfl, rfl, rfl⟩

/-- On the cyclic graph A -> *B -> B -> *A -> A with an empty registry,
every resolution along the cycle exhausts any amount of fuel: no name gets
registered before the recursive field resolutions, so no recursion along
the cycle ever hits the registry cache. -/
theorem cyc_all_none (n : Nat) :
    (∀ opts, registerModelF cycCtx n stEmpty ⟨0, none⟩ opts = none) ∧
    (∀ opts, registerModelF cycCtx n stEmpty ⟨1, none⟩ opts = none) ∧
    (∀ opts, registerModelF cycCtx n stEmpty ⟨2, none⟩ opts = none) ∧
    (∀ opts, registerModelF cycCtx n stEmpty ⟨3, none⟩ opts = none) := by
  have hty0 : cycCtx.types 0 = ⟨"p", "A", "p.A", .structK [⟨"B", "", 1, true, false⟩]⟩ := rfl
  have hty1 : cycCtx.types 1 = ⟨"", "", "*p.B", .ptrK 2⟩ := rfl
  have hty2 : cycCtx.types 2 = ⟨"p", "B", "p.B", .structK [⟨"A", "", 3, true, false⟩]⟩ := rfl
  have hty3 : cycCtx.types 3 = ⟨"", "", "*p.A", .ptrK 0⟩ := rfl
  have hmodels : stEmpty.models = [] := rfl
  have hkn : cycCtx.known = [] := rfl
  have hmf : ∀ tt, modelFromType cycCtx tt = (⟨tt, none⟩ : GoModel) := fun _ => rfl
  induction n with
  | zero => exact ⟨fun _ => rfl, fun _ => rfl, fun _ => rfl, fun _ => rfl⟩
  | succ n ih =>
    obtain ⟨ih0, ih1, ih2, ih3⟩ := ih
    refine ⟨fun opts => ?_, fun opts => ?_, fun opts => ?_, fun opts => ?_⟩
    · simp [registerModelF, structLoop, hty0, hty1, hmodels, hkn, hmf, lookupKV, ih1 []]
    · simp [registerModelF, hty1, hmodels, hkn, hmf, lookupKV, ih2 [withNullableOpt]]
    · simp [registerModelF, structLoop, hty2, hty3, hmodels, hkn, hmf, lookupKV, ih3 []]
    · simp [registerModelF, hty3, hmodels, hkn, hmf, lookupKV, ih0 [withNullableOpt]]

/-- Counterexample for C1: RegisterModel does NOT terminate on the type
graph with the true reference cycle A -> *B -> B -> *A: the second
encounter of Component Name "p_A" happens while "p_A" is still being
resolved and hence before it is registered, so it misses the cache and
re-enters resolution forever (every fuel bound is exhausted). -/
theorem c1_cycle_not_terminating : ¬ RegisterTerminates cycCtx stEmpty 0 := by
  rintro ⟨fuel, r, h⟩
  have h0 := (cyc_all_none fuel).1 []
  rw [show modelFromType cycCtx 0 = (⟨0, none⟩ : GoModel) from rfl] at h
  rw [h0] at h
  exact Option.noConfusion h


/-- A successful or failed RegisterModel call on a non-pointer-kind type
returns getModelName of that type: every return statement except the
pointer case's passes the name computed at entry through unchanged. -/
theorem registerModel_name (ctx : Ctx) (fuel : Nat) (st : RegState) (m : GoModel)
    (opts : List (Schema → Schema)) (st' : RegState) (n : String) (os : Option Schema)
    (oe : Option String)
    (hshape : isPtrShape ctx m.mtype = false)
    (h : registerModelF ctx fuel st m opts = some (st', n, os, oe)) :
    n = getModelName ctx m.mtype := by
  cases fuel with
  | zero => exact Option.noConfusion h
  | succ fuel =>
    unfold isPtrShape at hshape
    simp only [registerModelF] at h
    rcases hc : lookupKV st.models (getModelName ctx m.mtype) with _ | s0 <;>
      simp only [hc] at h
    case some =>
      simp only [Option.some.injEq, Prod.mk.injEq] at h
      exact h.2.1.symm
    rcases hk : lookupKV ctx.known m.mtype with _ | ks <;> simp only [hk] at h
    case some =>
      split at h <;> (simp only [Option.some.injEq, Prod.mk.injEq] at h; exact h.2.1.symm)
    rcases hhook : ctx.applyCustomSchemaToType with _ | hf <;> simp only [hhook] at h <;>
      rcases hmcb : m.cb with _ | cf <;> simp only [hmcb] at h <;>
      cases hsp : (ctx.types m.mtype).shape <;> simp only [hsp] at h
    -- pointer kinds contradict hshape
    all_goals try (rw [hsp] at hshape; simp at hshape)
    -- kinds with no recursive call: primitives, interface, unsupported
    all_goals try
      (repeat' split at h
       all_goals (simp only [Option.some.injEq, Prod.mk.injEq] at h; exact h.2.1.symm))
    -- slice element / map value recursion
    all_goals try
      (rename_i e0
       rcases hrec : registerModelF ctx fuel st (modelFromType ctx e0) [] with
         _ | ⟨st1, en, oes, oee⟩ <;> simp only [hrec] at h
       · exact Option.noConfusion h
       · rcases hoee : oee with _ | e1 <;> simp only [hoee] at h
         · rcases hoes : oes with _ | es <;> simp only [hoes] at h
           · simp only [Option.some.injEq, Prod.mk.injEq] at h
             exact h.2.1.symm
           · repeat' split at h
             all_goals (simp only [Option.some.injEq, Prod.mk.injEq] at h; exact h.2.1.symm)
         · simp only [Option.some.injEq, Prod.mk.injEq] at h
           exact h.2.1.symm)
    -- map: key check first, then the same value recursion
    all_goals try
      (rename_i k0 v0
       cases hks : isStringKind ctx k0 <;> simp [hks] at h
       · exact h.2.1.symm
       · rcases hrec : registerModelF ctx fuel st (modelFromType ctx v0) [] with
           _ | ⟨st1, en, oes, oee⟩ <;> simp only [hrec] at h
         · exact Option.noConfusion h
         · rcases hoee : oee with _ | e1 <;> simp only [hoee] at h
           · rcases hoes : oes with _ | es <;> simp only [hoes] at h
             · simp only [Option.some.injEq, Prod.mk.injEq] at h
               exact h.2.1.symm
             · repeat' split at h
               all_goals (simp only [Option.some.injEq, Prod.mk.injEq] at h; exact h.2.1.symm)
           · simp only [Option.some.injEq, Prod.mk.injEq] at h
             exact h.2.1.symm)
    -- struct: the field loop
    all_goals
      (rename_i flds
       rcases hloop : structLoop ctx (registerModelF ctx fuel) (ctx.types m.mtype).pkgPath
           (ctx.types m.mtype).tname (ctx.types m.mtype).goString
           (getModelName ctx m.mtype) flds st (newObjectSchema.setProperties []) with
         _ | ⟨st1, s1, oerr⟩ <;> simp only [hloop] at h
       · exact Option.noConfusion h
       · rcases hoerr : oerr with _ | e1 <;> simp only [hoerr] at h
         · repeat' split at h
           all_goals (simp only [Option.some.injEq, Prod.mk.injEq] at h; exact h.2.1.symm)
         · simp only [Option.some.injEq, Prod.mk.injEq] at h
           exact h.2.1.symm)



/-- A RegisterModel call that passes the registry-cache and known-types
checks and succeeds applies its call-site options last, so with the
WithNullable option the returned schema is nullable. -/
theorem registerModel_withNullable (ctx : Ctx) (fuel : Nat) (st : RegState) (m : GoModel)
    (st' : RegState) (n : String) (s : Schema)
    (hmiss : lookupKV st.models (getModelName ctx m.mtype) = none)
    (hknown : lookupKV ctx.known m.mtype = none)
    (h : registerModelF ctx fuel st m [withNullableOpt] = some (st', n, some s, none)) :
    s.nullable = true := by
  cases fuel with
  | zero => exact Option.noConfusion h
  | succ fuel =>
    simp only [registerModelF, hmiss, hknown, List.foldl_cons, List.foldl_nil,
      withNullableOpt] at h
    rcases hhook : ctx.applyCustomSchemaToType with _ | hf <;> simp only [hhook] at h <;>
      rcases hmcb : m.cb with _ | cf <;> simp only [hmcb] at h <;>
      cases hsp : (ctx.types m.mtype).shape <;> simp only [hsp] at h
    -- kinds with no recursive call
    all_goals try
      (repeat' split at h
       all_goals (simp only [Option.some.injEq, Prod.mk.injEq] at h; first | exact h.2.2.1 ▸ nullable_setNullable _ true | exact Option.noConfusion h.2.2.1))
    -- pointer: the fall-through still applies the nullable option
    all_goals try
      (rename_i e0
       rcases hrec : registerModelF ctx fuel st (modelFromType ctx e0) [withNullableOpt] with
         _ | ⟨st1, n1, os1, oe1⟩ <;> simp only [hrec] at h
       · exact Option.noConfusion h
       · rcases hos1 : os1 with _ | s1 <;> simp only [hos1] at h
         · simp at h
         · repeat' split at h
           all_goals (simp only [Option.some.injEq, Prod.mk.injEq] at h; first | exact h.2.2.1 ▸ nullable_setNullable _ true | exact Option.noConfusion h.2.2.1))
    -- slice element recursion
    all_goals try
      (rename_i e0
       rcases hrec : registerModelF ctx fuel st (modelFromType ctx e0) [] with
         _ | ⟨st1, en, oes, oee⟩ <;> simp only [hrec] at h
       · exact Option.noConfusion h
       · rcases hoee : oee with _ | e1 <;> simp only [hoee] at h
         · rcases hoes : oes with _ | es <;> simp only [hoes] at h
           · simp at h
           · repeat' split at h
             all_goals (simp only [Option.some.injEq, Prod.mk.injEq] at h; first | exact h.2.2.1 ▸ nullable_setNullable _ true | exact Option.noConfusion h.2.2.1)
         · simp at h)
    -- map
    all_goals try
      (rename_i k0 v0
       cases hks : isStringKind ctx k0 <;> simp [hks] at h
       · rcases hrec : registerModelF ctx fuel st (modelFromType ctx v0) [] with
           _ | ⟨st1, en, oes, oee⟩ <;> simp only [hrec] at h
         · exact Option.noConfusion h
         · rcases hoee : oee with _ | e1 <;> simp only [hoee] at h
           · rcases hoes : oes with _ | es <;> simp only [hoes] at h
             · simp at h
             · repeat' split at h
               all_goals (simp only [Option.some.injEq, Prod.mk.injEq] at h; first | exact h.2.2.1 ▸ nullable_setNullable _ true | exact Option.noConfusion h.2.2.1)
           · simp at h)
    -- struct
    all_goals
      (rename_i flds
       rcases hloop : structLoop ctx (registerModelF ctx fuel) (ctx.types m.mtype).pkgPath
           (ctx.types m.mtype).tname (ctx.types m.mtype).goString
           (getModelName ctx m.mtype) flds st (newObjectSchema.setProperties []) with
         _ | ⟨st1, s1, oerr⟩ <;> simp only [hloop] at h
       · exact Option.noConfusion h
       · rcases hoerr : oerr with _ | e1 <;> simp only [hoerr] at h
         · repeat' split at h
           all_goals (simp only [Option.some.injEq, Prod.mk.injEq] at h; first | exact h.2.2.1 ▸ nullable_setNullable _ true | exact Option.noConfusion h.2.2.1)
         · simp at h)



/-- C3 (amended): for a pointer type whose pointee is not itself a pointer
and whose own and pointee's Component Names are not yet registered or
known, RegisterModel resolves the pointee, marks the result nullable and
returns the pointee's Component Name. (When the pointee's name is already
registered, the cache hit returns the cached schema unchanged — not
re-marked nullable; see the counterexample.) -/
theorem c3_pointer_resolution (ctx : Ctx) (fuel : Nat) (st : RegState) (t e : Nat)
    (cb : Option (Schema → Schema)) (st' : RegState) (n : String) (s : Schema)
    (hsp : (ctx.types t).shape = .ptrK e)
    (hesp : isPtrShape ctx e = false)
    (hhook : ctx.applyCustomSchemaToType = none)
    (hcb : cb = none)
    (hmiss : lookupKV st.models (getModelName ctx t) = none)
    (hknown : lookupKV ctx.known t = none)
    (hemiss : lookupKV st.models (getModelName ctx e) = none)
    (heknown : lookupKV ctx.known e = none)
    (h : registerModelF ctx fuel st ⟨t, cb⟩ [] = some (st', n, some s, none)) :
    n = getModelName ctx e ∧ s.nullable = true := by
  cases fuel with
  | zero => exact Option.noConfusion h
  | succ fuel =>
    subst hcb
    simp only [registerModelF, hmiss, hknown, hsp] at h
    rcases hrec : registerModelF ctx fuel st (modelFromType ctx e) [withNullableOpt] with
      _ | ⟨st1, n1, os1, oe1⟩ <;> simp only [hrec] at h
    · exact Option.noConfusion h
    · rcases os1 with _ | s1
      · simp at h
      · simp only [hhook, List.foldl_nil] at h
        split at h <;> simp only [Option.some.injEq, Prod.mk.injEq] at h <;>
          (obtain ⟨h1, h2, h3, h4⟩ := h
           subst h4
           exact ⟨h2 ▸ registerModel_name ctx fuel st (modelFromType ctx e) [withNullableOpt]
               st1 n1 (some s1) none hesp hrec,
             h3 ▸ registerModel_withNullable ctx fuel st (modelFromType ctx e) st1 n1 s1
               hemiss heknown hrec⟩)

/-- Witness for C3 at *T over the example graph with an empty registry. -/
theorem c3_pointer_resolution_witness :
    "p_T" = getModelName exCtx 0 ∧ (exTSchema.setNullable true).nullable = true :=
  c3_pointer_resolution exCtx 3 stEmpty 1 0 none
    ⟨[("p_T", exTSchema.setNullable true)], [("p", [])]⟩ "p_T" (exTSchema.setNullable true)
    rfl rfl rfl rfl rfl rfl rfl rfl rfl

/-- Counterexample for C3 as claimed: when the pointee type T was already
registered earlier in the run (first conjunct registers it), resolving *T
returns the cached "p_T" schema with nullable = false — the WithNullable
option is skipped by the cache hit, so the schema is NOT marked nullable. -/
theorem c3_pointer_cached_not_nullable :
    registerModelF exCtx 2 stEmpty ⟨0, none⟩ [] =
      some (⟨[("p_T", exTSchema)], [("p", [])]⟩, "p_T", some exTSchema, none) ∧
    registerModelF exCtx 2 ⟨[("p_T", exTSchema)], [("p", [])]⟩ ⟨1, none⟩ [] =
      some (⟨[("p_T", exTSchema)], [("p", [])]⟩, "p_T", some exTSchema, none) ∧
    exTSchema.nullable = false :=
  ⟨rfl, rfl, rfl⟩



/-- C7: a map type whose key kind is not string fails with the error
naming the offending key type (and an unchanged state), and RegisterModel
returns that error to its caller, aborting the generation; a map type with
a string-kind key resolves the value type and produces a nullable object
schema whose additionalProperties is the Schema Reference (or inline
value) of the resolved value schema. -/
theorem c7_map_key_rule (ctx : Ctx) (fuel : Nat) (st : RegState) (t k v : Nat)
    (cb : Option (Schema → Schema)) (opts : List (Schema → Schema))
    (hsp : (ctx.types t).shape = .mapK k v)
    (hmiss : lookupKV st.models (getModelName ctx t) = none)
    (hknown : lookupKV ctx.known t = none) :
    (isStringKind ctx k = false →
      registerModelF ctx (fuel + 1) st ⟨t, cb⟩ opts =
        some (st, getModelName ctx t, none,
          some ("maps must have a string key, but this map is of type \"" ++
            (ctx.types k).goString ++ "\""))) ∧
    (isStringKind ctx k = true → ctx.applyCustomSchemaToType = none → cb = none → opts = [] →
      ∀ st' n s, registerModelF ctx (fuel + 1) st ⟨t, cb⟩ opts = some (st', n, some s, none) →
        s.type_ = ["object"] ∧ s.nullable = true ∧
        ∃ st1 en es,
          registerModelF ctx fuel st (modelFromType ctx v) [] = some (st1, en, some es, none) ∧
          s.addPropsSchema = some (getSchemaReferenceOrValue en es)) := by
  constructor
  · intro hks
    simp [registerModelF, hmiss, hknown, hsp, hks]
  · intro hks hhook hcb hopts st' n s h
    subst hcb hopts
    simp only [registerModelF, hmiss, hknown, hsp, hks, Bool.not_true, Bool.false_eq_true,
      if_false] at h
    rcases hrec : registerModelF ctx fuel st (modelFromType ctx v) [] with
      _ | ⟨st1, en, oes, oee⟩ <;> simp only [hrec] at h
    · exact Option.noConfusion h
    · rcases oee with _ | e1
      · rcases oes with _ | es
        · simp at h
        · simp only [hhook, List.foldl_nil] at h
          split at h <;>
            (simp only [Option.some.injEq, Prod.mk.injEq] at h
             exact ⟨h.2.2.1 ▸ rfl, h.2.2.1 ▸ rfl, st1, en, es, rfl, h.2.2.1 ▸ rfl⟩)
      · simp at h

/-- Witness for C7 at the concrete types map with int keys (error case)
and map with string keys (success case). -/
theorem c7_map_key_rule_witness :
    (registerModelF exCtx 1 stEmpty ⟨5, none⟩ [] =
      some (stEmpty, "map_int_string", none,
        some "maps must have a string key, but this map is of type \"int\"")) ∧
    (exMapSchema.type_ = ["object"] ∧ exMapSchema.nullable = true ∧
      ∃ st1 en es,
        registerModelF exCtx 1 stEmpty (modelFromType exCtx 3) [] =
          some (st1, en, some es, none) ∧
        exMapSchema.addPropsSchema = some (getSchemaReferenceOrValue en es)) := by
  constructor
  · exact (c7_map_key_rule exCtx 0 stEmpty 5 3 2 none [] rfl rfl rfl).1 rfl
  · exact (c7_map_key_rule exCtx 1 stEmpty 6 2 3 none [] rfl rfl rfl).2 rfl rfl rfl rfl
      stEmpty "map_string_int" exMapSchema rfl



/-- Unfolding of reqNames over a cons cell. -/
theorem reqNames_cons (ctx : Ctx) (f : GoField) (rest : List GoField) :
    reqNames ctx (f :: rest) =
      (if f.exported && !f.anonymous &&
          isFieldRequired (isPtrShape ctx f.ftype) (hasOmitEmptyTag f)
       then [serializedName f] else []) ++ reqNames ctx rest := by
  simp only [reqNames, List.filterMap_cons]
  cases hq : (f.exported && !f.anonymous &&
      isFieldRequired (isPtrShape ctx f.ftype) (hasOmitEmptyTag f)) <;> simp [hq]

/-- The struct-field loop, over fields none of which is anonymous,
appends to `required` exactly the serialized names of the exported fields
that are neither pointers nor tagged omitempty, in field order. -/
theorem structLoop_required (ctx : Ctx)
    (recur : RegState → GoModel → List (Schema → Schema) → Option RmOut)
    (tPkg tName tGoString tCompName : String) (fs : List GoField) :
    ∀ (st : RegState) (schema : Schema) (st' : RegState) (s' : Schema),
    (∀ g ∈ fs, g.anonymous = false) →
    structLoop ctx recur tPkg tName tGoString tCompName fs st schema = some (st', s', none) →
    s'.required = schema.required ++ reqNames ctx fs := by
  induction fs with
  | nil =>
    intro st schema st' s' _ h
    simp only [structLoop, Option.some.injEq, Prod.mk.injEq] at h
    simp [← h.2.1, reqNames]
  | cons f rest ih =>
    intro st schema st' s' hanon h
    have hfanon : f.anonymous = false := hanon f (List.mem_cons_self f rest)
    have hrest : ∀ g ∈ rest, g.anonymous = false :=
      fun g hg => hanon g (List.mem_cons_of_mem f hg)
    cases hex : f.exported with
    | false =>
      simp only [structLoop, hex, Bool.not_false, if_true] at h
      rw [ih st schema st' s' hrest h, reqNames_cons]
      simp [hex]
    | true =>
      simp only [structLoop, hex, Bool.not_true, Bool.false_eq_true, if_false] at h
      rw [show ((splitOnChar ',' f.tag).contains "omitempty") = hasOmitEmptyTag f from rfl] at h
      rw [show (if (splitOnChar ',' f.tag).headD "" = "" then f.fname
            else (splitOnChar ',' f.tag).headD "") = serializedName f from rfl] at h
      rcases hrec : recur st (modelFromType ctx f.ftype) [] with _ | ⟨st1, n1, osch, oerr⟩ <;>
        simp only [hrec] at h
      · exact Option.noConfusion h
      · rcases oerr with _ | e1
        · rcases osch with _ | fsch
          · simp at h
          · simp only [hfanon, Bool.false_eq_true, if_false] at h
            rcases hrv : getSchemaReferenceOrValue n1 fsch with rn | v <;> simp only [hrv] at h
            · cases hreq : isFieldRequired (isPtrShape ctx f.ftype) (hasOmitEmptyTag f) <;>
                simp only [hreq, Bool.false_eq_true, if_false, if_true] at h <;>
                rw [ih _ _ _ _ hrest h, reqNames_cons] <;>
                simp [hex, hfanon, hreq, required_setRequired, required_setProperties,
                  List.append_assoc]
            · rcases hcm : getTypeFieldComment ctx st1 tPkg tName f.fname with ⟨st2, ce⟩
              cases ce with
              | error e =>
                simp only [hcm] at h
                simp at h
              | ok cd =>
                simp only [hcm] at h
                cases hreq : isFieldRequired (isPtrShape ctx f.ftype) (hasOmitEmptyTag f) <;>
                  simp only [hreq, Bool.false_eq_true, if_false, if_true] at h <;>
                  rw [ih _ _ _ _ hrest h, reqNames_cons] <;>
                  simp [hex, hfanon, hreq, required_setRequired, required_setProperties,
                    List.append_assoc]
        · simp at h



/-- Unfolding of exportedNames over a cons cell. -/
theorem exportedNames_cons (f : GoField) (rest : List GoField) :
    exportedNames (f :: rest) =
      (if f.exported then [serializedName f] else []) ++ exportedNames rest := by
  simp only [exportedNames, List.filterMap_cons]
  cases hq : f.exported <;> simp [hq]

/-- An exported field contributes its serialized name to exportedNames. -/
theorem mem_exportedNames (fs : List GoField) (f : GoField) (hf : f ∈ fs)
    (hexp : f.exported = true) : serializedName f ∈ exportedNames fs := by
  apply List.mem_filterMap.mpr
  exact ⟨f, hf, by simp [hexp]⟩

/-- Every required name is the serialized name of some exported field. -/
theorem reqNames_sub_exportedNames (ctx : Ctx) (fs : List GoField) (x : String)
    (hx : x ∈ reqNames ctx fs) : x ∈ exportedNames fs := by
  obtain ⟨g, hg, hgx⟩ := List.mem_filterMap.mp hx
  apply List.mem_filterMap.mpr
  refine ⟨g, hg, ?_⟩
  by_cases hc : (g.exported && !g.anonymous &&
      isFieldRequired (isPtrShape ctx g.ftype) (hasOmitEmptyTag g)) = true
  · simp only [hc, if_true] at hgx
    have : g.exported = true := by
      have := hc
      simp [Bool.and_eq_true] at this
      exact this.1.1
    simp [this, hgx]
  · simp only [Bool.not_eq_true] at hc
    rw [hc] at hgx
    simp at hgx

/-- With pairwise-distinct exported serialized names, membership in the
required-name list characterises exactly the non-pointer, non-omitempty
exported fields. -/
theorem mem_reqNames_iff (ctx : Ctx) (fs : List GoField)
    (hnodup : (exportedNames fs).Nodup)
    (hanon : ∀ g ∈ fs, g.anonymous = false)
    (f : GoField) (hf : f ∈ fs) (hexp : f.exported = true) :
    serializedName f ∈ reqNames ctx fs ↔
      isFieldRequired (isPtrShape ctx f.ftype) (hasOmitEmptyTag f) = true := by
  induction fs with
  | nil => cases hf
  | cons g rest ih =>
    have hganon : g.anonymous = false := hanon g (List.mem_cons_self g rest)
    have hrest : ∀ x ∈ rest, x.anonymous = false :=
      fun x hx => hanon x (List.mem_cons_of_mem g hx)
    rcases List.mem_cons.mp hf with hfg | hfr
    · subst hfg
      rw [exportedNames_cons] at hnodup
      simp only [hexp, eq_self_iff_true, if_true, List.singleton_append,
        List.nodup_cons] at hnodup
      rw [reqNames_cons, hexp, hganon]
      cases hreq : isFieldRequired (isPtrShape ctx f.ftype) (hasOmitEmptyTag f)
      · simp only [Bool.not_false, Bool.true_and, Bool.and_true, hreq, Bool.false_eq_true,
          if_false, List.nil_append]
        constructor
        · intro hmem
          exact absurd (reqNames_sub_exportedNames ctx rest _ hmem) hnodup.1
        · intro hfalse
          exact absurd hfalse (by simp)
      · simp [hreq]
    · have hgtail : (exportedNames rest).Nodup := by
        rw [exportedNames_cons] at hnodup
        cases hg : g.exported
        · rw [hg] at hnodup
          simpa using hnodup
        · rw [hg] at hnodup
          simp only [eq_self_iff_true, if_true, List.singleton_append,
            List.nodup_cons] at hnodup
          exact hnodup.2
      have hne : serializedName f ∈ exportedNames rest :=
        mem_exportedNames rest f hfr hexp
      rw [reqNames_cons]
      have hnothead : serializedName f ∉
          (if g.exported && !g.anonymous &&
              isFieldRequired (isPtrShape ctx g.ftype) (hasOmitEmptyTag g)
           then [serializedName g] else []) := by
        cases hc : (g.exported && !g.anonymous &&
            isFieldRequired (isPtrShape ctx g.ftype) (hasOmitEmptyTag g))
        · simp
        · simp only [hc, eq_self_iff_true, if_true]
          have hgexp : g.exported = true := by
            have := hc
            simp [Bool.and_eq_true] at this
            exact this.1.1
          rw [exportedNames_cons] at hnodup
          simp only [hgexp, eq_self_iff_true, if_true, List.singleton_append,
            List.nodup_cons] at hnodup
          intro hmem
          rw [List.mem_singleton] at hmem
          exact hnodup.1 (hmem ▸ hne)
      rw [List.mem_append]
      constructor
      · intro hor
        rcases hor with hh | ht
        · exact absurd hh hnothead
        · exact (ih hgtail hrest hfr).mp ht
      · intro hreq
        exact Or.inr ((ih hgtail hrest hfr).mpr hreq)

/-- C4: for a struct type (without embedded fields, and with distinct
serialized names across its exported fields) resolved by RegisterModel,
an exported field's serialized name is in the resulting schema's required
list iff the field's kind is not pointer and its json tag carries no
omitempty component; in particular a pointer field is absent from
required even without an omitempty tag. -/
theorem c4_required_iff (ctx : Ctx) (fuel : Nat) (st : RegState) (t : Nat)
    (cb : Option (Schema → Schema)) (fs : List GoField) (st' : RegState) (n : String)
    (s : Schema)
    (hsp : (ctx.types t).shape = .structK fs)
    (hanon : ∀ g ∈ fs, g.anonymous = false)
    (hnodup : (exportedNames fs).Nodup)
    (hhook : ctx.applyCustomSchemaToType = none)
    (hcb : cb = none)
    (hmiss : lookupKV st.models (getModelName ctx t) = none)
    (hknown : lookupKV ctx.known t = none)
    (h : registerModelF ctx fuel st ⟨t, cb⟩ [] = some (st', n, some s, none))
    (f : GoField) (hf : f ∈ fs) (hexp : f.exported = true) :
    serializedName f ∈ s.required ↔
      isFieldRequired (isPtrShape ctx f.ftype) (hasOmitEmptyTag f) = true := by
  cases fuel with
  | zero => exact Option.noConfusion h
  | succ fuel =>
    subst hcb
    simp only [registerModelF, hmiss, hknown, hsp] at h
    rcases hloop : structLoop ctx (registerModelF ctx fuel) (ctx.types t).pkgPath
        (ctx.types t).tname (ctx.types t).goString (getModelName ctx t) fs st
        (newObjectSchema.setProperties []) with _ | ⟨st1, s1, oerr⟩ <;> simp only [hloop] at h
    · exact Option.noConfusion h
    · rcases oerr with _ | e1
      · simp only [hhook, List.foldl_nil] at h
        split at h <;> simp only [Option.some.injEq, Prod.mk.injEq] at h <;>
          (rw [← h.2.2.1,
            structLoop_required ctx (registerModelF ctx fuel) (ctx.types t).pkgPath
              (ctx.types t).tname (ctx.types t).goString (getModelName ctx t) fs st
              (newObjectSchema.setProperties []) st1 s1 hanon hloop]
           rw [show (newObjectSchema.setProperties []).required = [] from rfl, List.nil_append]
           exact mem_reqNames_iff ctx fs hnodup hanon f hf hexp)
      · simp at h

/-- Witness for C4 on struct W of the example graph: its plain string
field A (no omitempty) is in `required`; its pointer field B, although it
carries no omitempty tag, is not. -/
theorem c4_required_iff_witness :
    (serializedName ⟨"A", "", 2, true, false⟩ ∈ exWSchema.required ↔
      isFieldRequired (isPtrShape exCtx 2) (hasOmitEmptyTag ⟨"A", "", 2, true, false⟩) = true) ∧
    (serializedName ⟨"B", "", 4, true, false⟩ ∈ exWSchema.required ↔
      isFieldRequired (isPtrShape exCtx 4) (hasOmitEmptyTag ⟨"B", "", 4, true, false⟩) = true) :=
  ⟨c4_required_iff exCtx 3 stEmpty 8 none
      [⟨"A", "", 2, true, false⟩, ⟨"B", "", 4, true, false⟩]
      ⟨[("p_W", exWSchema)], [("p", [])]⟩ "p_W" exWSchema rfl
      (by decide) (by decide) rfl rfl rfl rfl rfl
      ⟨"A", "", 2, true, false⟩ (by decide) rfl,
    c4_required_iff exCtx 3 stEmpty 8 none
      [⟨"A", "", 2, true, false⟩, ⟨"B", "", 4, true, false⟩]
      ⟨[("p_W", exWSchema)], [("p", [])]⟩ "p_W" exWSchema rfl
      (by decide) (by decide) rfl rfl rfl rfl rfl
      ⟨"B", "", 4, true, false⟩ (by decide) rfl⟩



/-- C6: a struct whose field is an anonymous embedded type, with the
embedded type's Component Name not previously registered, resolves to a
schema whose properties are the embedded type's properties spliced in
directly and whose required list is the embedded type's, and the embedded
type's standalone registration is retracted: its name (distinct from the
parent's) is absent from the registry after the resolution, while the
parent struct itself is registered. -/
theorem c6_embedded_flattened (ctx : Ctx) (fuel : Nat) (st : RegState) (t : Nat)
    (cb : Option (Schema → Schema)) (a : GoField) (st' : RegState) (n : String) (s : Schema)
    (hsp : (ctx.types t).shape = .structK [a])
    (hanon : a.anonymous = true)
    (hexp : a.exported = true)
    (hhook : ctx.applyCustomSchemaToType = none)
    (hcb : cb = none)
    (hmiss : lookupKV st.models (getModelName ctx t) = none)
    (hknown : lookupKV ctx.known t = none)
    (hembed : lookupKV st.models (getModelName ctx a.ftype) = none)
    (h : registerModelF ctx (fuel + 1) st ⟨t, cb⟩ [] = some (st', n, some s, none)) :
    ∃ st1 n1 es,
      registerModelF ctx fuel st (modelFromType ctx a.ftype) [] =
        some (st1, n1, some es, none) ∧
      s.properties = es.properties.foldl (fun acc kv => upsertKV acc kv.1 kv.2) [] ∧
      s.required = es.required ∧
      n = getModelName ctx t ∧
      lookupKV st'.models (getModelName ctx t) = some s ∧
      (n1 ≠ getModelName ctx t → lookupKV st'.models n1 = none) := by
  subst hcb
  simp only [registerModelF, hmiss, hknown, hsp, structLoop, hexp, Bool.not_true,
    Bool.false_eq_true, if_false, hembed, Option.isSome_none, Bool.not_false, if_true,
    hanon, eq_self_iff_true] at h
  rcases hrec : registerModelF ctx fuel st (modelFromType ctx a.ftype) [] with
    _ | ⟨st1, n1, osch, oerr⟩ <;> simp only [hrec] at h
  · exact Option.noConfusion h
  · rcases oerr with _ | e1
    · rcases osch with _ | es
      · simp at h
      · simp only [hhook, List.foldl_nil] at h
        split at h
        case isFalse hsb => exact absurd rfl hsb
        case isTrue hsb =>
          simp only [Option.some.injEq, Prod.mk.injEq] at h
          obtain ⟨h1, h2, h3, -⟩ := h
          refine ⟨st1, n1, es, rfl, h3 ▸ rfl, h3 ▸ rfl, h2.symm, ?_, ?_⟩
          · rw [← h1, ← h3]
            exact lookupKV_upsert_self _ _ _
          · intro hne
            rw [← h1]
            show lookupKV (upsertKV (removeKV st1.models n1) (getModelName ctx t) _) n1 = none
            rw [lookupKV_upsert_ne _ _ _ _ hne]
            exact lookupKV_remove_self _ _
    · simp at h

/-- Witness for C6 on struct Outer anonymously embedding struct Embedded:
Outer's schema carries Embedded's property "Name" and required list, and
"p_Embedded" is absent from the final registry while "p_Outer" holds the
flattened schema. -/
theorem c6_embedded_flattened_witness :
    ∃ st1 n1 es,
      registerModelF exCtx 2 stEmpty (modelFromType exCtx 10) [] =
        some (st1, n1, some es, none) ∧
      exEmbeddedSchema.properties =
        es.properties.foldl (fun acc kv => upsertKV acc kv.1 kv.2) [] ∧
      exEmbeddedSchema.required = es.required ∧
      "p_Outer" = getModelName exCtx 9 ∧
      lookupKV (RegState.mk [("p_Outer", exEmbeddedSchema)] [("p", [])]).models
        (getModelName exCtx 9) = some exEmbeddedSchema ∧
      (n1 ≠ getModelName exCtx 9 →
        lookupKV (RegState.mk [("p_Outer", exEmbeddedSchema)] [("p", [])]).models n1 = none) :=
  c6_embedded_flattened exCtx 2 stEmpty 9 none ⟨"Embedded", "", 10, true, true⟩
    ⟨[("p_Outer", exEmbeddedSchema)], [("p", [])]⟩ "p_Outer" exEmbeddedSchema
    rfl rfl rfl rfl rfl rfl rfl rfl rfl



/-- One step of mergeMap's fold. -/
theorem mergeMap_cons {κ α : Type} [DecidableEq κ] (into : List (κ × α)) (kf : κ) (vf : α)
    (rest : List (κ × α)) :
    mergeMap into ((kf, vf) :: rest) =
      mergeMap (if (lookupKV into kf).isSome then into else upsertKV into kf vf) rest := rfl

/-- mergeMap is purely additive: a key already in `into` keeps its value,
and a key absent from `into` gets its value from `from1` (first
occurrence), so lookups resolve to the existing entry first. -/
theorem lookupKV_mergeMap {κ α : Type} [DecidableEq κ] (from1 : List (κ × α)) :
    ∀ (into : List (κ × α)) (k : κ),
    lookupKV (mergeMap into from1) k =
      if (lookupKV into k).isSome then lookupKV into k else lookupKV from1 k := by
  induction from1 with
  | nil =>
    intro into k
    cases h : lookupKV into k <;> simp [mergeMap, h, lookupKV]
  | cons kv rest ih =>
    intro into k
    obtain ⟨kf, vf⟩ := kv
    rw [mergeMap_cons]
    by_cases hin : (lookupKV into kf).isSome
    · rw [if_pos hin, ih]
      by_cases hk : kf = k
      · subst hk
        simp [hin, lookupKV]
      · simp [lookupKV, hk]
    · rw [if_neg hin, ih]
      by_cases hk : kf = k
      · subst hk
        have hnone : lookupKV into kf = none := by
          cases hl : lookupKV into kf
          · rfl
          · rw [hl] at hin
            simp at hin
        simp [hnone, lookupKV_upsert_self, lookupKV]
      · rw [lookupKV_upsert_ne _ _ _ _ (Ne.symm hk)]
        simp [lookupKV, hk]

/-- C10: API.Merge on an existing route (same method and pattern) is
purely additive: every existing path/query/header parameter entry and
response-model entry keeps its value, only keys absent from the existing
route are copied in from the argument, a non-nil request model is never
replaced (and a nil one takes the argument's), and the route's other data
(response headers, tags, description) is untouched. -/
theorem c10_merge_additive (routes : List (String × List (String × RouteM)))
    (m2r : List (String × RouteM)) (t0 r : RouteM)
    (h1 : lookupKV routes r.pattern = some m2r)
    (h2 : lookupKV m2r r.method = some t0) :
    lookupKV (apiMergeRoutes routes r) r.pattern =
      some (upsertKV m2r r.method (mergeRoute t0 r)) ∧
    lookupKV (upsertKV m2r r.method (mergeRoute t0 r)) r.method = some (mergeRoute t0 r) ∧
    (∀ k, lookupKV (mergeRoute t0 r).params.path k =
      if (lookupKV t0.params.path k).isSome then lookupKV t0.params.path k
      else lookupKV r.params.path k) ∧
    (∀ k, lookupKV (mergeRoute t0 r).params.query k =
      if (lookupKV t0.params.query k).isSome then lookupKV t0.params.query k
      else lookupKV r.params.query k) ∧
    (∀ k, lookupKV (mergeRoute t0 r).params.header k =
      if (lookupKV t0.params.header k).isSome then lookupKV t0.params.header k
      else lookupKV r.params.header k) ∧
    (∀ k, lookupKV (mergeRoute t0 r).models.responses k =
      if (lookupKV t0.models.responses k).isSome then lookupKV t0.models.responses k
      else lookupKV r.models.responses k) ∧
    (∀ q, t0.models.request = some q → (mergeRoute t0 r).models.request = some q) ∧
    (t0.models.request = none → (mergeRoute t0 r).models.request = r.models.request) ∧
    (mergeRoute t0 r).models.responseHeaders = t0.models.responseHeaders ∧
    (mergeRoute t0 r).tags = t0.tags ∧
    (mergeRoute t0 r).description = t0.description := by
  refine ⟨?_, lookupKV_upsert_self _ _ _,
    fun k => lookupKV_mergeMap _ _ _, fun k => lookupKV_mergeMap _ _ _,
    fun k => lookupKV_mergeMap _ _ _, fun k => lookupKV_mergeMap _ _ _,
    ?_, ?_, rfl, rfl, rfl⟩
  · simp only [apiMergeRoutes, h1, h2, Option.getD_some]
    exact lookupKV_upsert_self _ _ _
  · intro q hq
    simp [mergeRoute, hq]
  · intro hq
    simp [mergeRoute, hq]

/-- Witness for C10 at a concrete routes table: the existing "id" path
parameter and 200 response survive the merge; "y" and 500 are copied in;
the existing request model is kept. -/
theorem c10_merge_additive_witness :
    lookupKV (apiMergeRoutes c10Routes c10R) c10R.pattern =
      some (upsertKV [("GET", c10T0)] c10R.method (mergeRoute c10T0 c10R)) ∧
    lookupKV (upsertKV [("GET", c10T0)] c10R.method (mergeRoute c10T0 c10R)) c10R.method =
      some (mergeRoute c10T0 c10R) ∧
    (∀ k, lookupKV (mergeRoute c10T0 c10R).params.path k =
      if (lookupKV c10T0.params.path k).isSome then lookupKV c10T0.params.path k
      else lookupKV c10R.params.path k) ∧
    (∀ k, lookupKV (mergeRoute c10T0 c10R).params.query k =
      if (lookupKV c10T0.params.query k).isSome then lookupKV c10T0.params.query k
      else lookupKV c10R.params.query k) ∧
    (∀ k, lookupKV (mergeRoute c10T0 c10R).params.header k =
      if (lookupKV c10T0.params.header k).isSome then lookupKV c10T0.params.header k
      else lookupKV c10R.params.header k) ∧
    (∀ k, lookupKV (mergeRoute c10T0 c10R).models.responses k =
      if (lookupKV c10T0.models.responses k).isSome then lookupKV c10T0.models.responses k
      else lookupKV c10R.models.responses k) ∧
    (∀ q, c10T0.models.request = some q → (mergeRoute c10T0 c10R).models.request = some q) ∧
    (c10T0.models.request = none → (mergeRoute c10T0 c10R).models.request = c10R.models.request) ∧
    (mergeRoute c10T0 c10R).models.responseHeaders = c10T0.models.responseHeaders ∧
    (mergeRoute c10T0 c10R).tags = c10T0.tags ∧
    (mergeRoute c10T0 c10R).description = c10T0.description :=
  c10_merge_additive c10Routes [("GET", c10T0)] c10T0 c10R rfl rfl


end OpenapiProof
